import Mathlib

/-!
Verification of the X-Agent retrieval-and-generation pipeline
(`x_agent/agent_core.py`, `x_agent/news_fetcher.py`, `x_agent/populate_db.py`).

Python strings are embedded as `List Char` (one entry per code point, matching
Python's character-indexed slicing and `len`).  Stateless methods become pure
functions; external services (the sentence-embedding model, the ChromaDB
nearest-neighbor index, the Ollama chat endpoint, the NewsAPI client and the
newspaper article extractor) enter as explicit function parameters or oracle
values, and a Python call that may raise is an `Option`-valued oracle whose
`none` is the exception path.
-/

namespace XAgent

/-- The characters Python's `re` module matches with `\s` (and `str.strip`
strips): ASCII whitespace, the C1 controls `\x1c`–`\x1f` and `\x85`, and the
Unicode space separators.  `generate_tweet_draft` uses both `\s*` (in the
`<think>`-block pattern) and `.strip()`. -/
def pySpaceChars : List Char :=
  [' ', '\t', '\n', '\x0b', '\x0c', '\x0d', '\x1c', '\x1d', '\x1e', '\x1f',
   '\x85', '\xa0', '\u1680', '\u2000', '\u2001', '\u2002', '\u2003', '\u2004',
   '\u2005', '\u2006', '\u2007', '\u2008', '\u2009', '\u200a', '\u2028',
   '\u2029', '\u202f', '\u205f', '\u3000']

/-- Whether `c` is whitespace to Python's `re.sub(r"...\s*", ...)` and
`str.strip()`. -/
def isPySpace (c : Char) : Bool :=
  pySpaceChars.contains c

/-- Python's `str.strip()`: drop leading and trailing whitespace. -/
def pyStrip (s : List Char) : List Char :=
  (((s.dropWhile isPySpace).reverse).dropWhile isPySpace).reverse

/-- Scan `s` left to right for the first occurrence of `pat`; on success
return the part strictly before that occurrence and the part strictly after
it.  This is the primitive from which we build the semantics of the
non-greedy `re.sub(r"<think>.*?</think>\s*", "", text)` call of
`generate_tweet_draft` / `generate_image_prompt`. -/
def splitOnceAfter {α : Type} [DecidableEq α] (pat : List α) :
    List α → Option (List α × List α)
  | [] => none
  | c :: rest =>
    if pat.isPrefixOf (c :: rest) then some ([], (c :: rest).drop pat.length)
    else
      match splitOnceAfter pat rest with
      | some (b, a) => some (c :: b, a)
      | none => none

section SplitOnceAfter

variable {α : Type} [DecidableEq α]

theorem splitOnceAfter_eq_append {pat s b a : List α}
    (h : splitOnceAfter pat s = some (b, a)) : s = b ++ pat ++ a := by
  induction s generalizing b with
  | nil => simp [splitOnceAfter] at h
  | cons c rest ih =>
    rw [splitOnceAfter] at h
    by_cases hp : pat.isPrefixOf (c :: rest)
    · rw [if_pos hp] at h
      obtain ⟨rfl, rfl⟩ := Prod.mk.injEq .. ▸ Option.some.injEq .. ▸ h
      have hpre : pat <+: c :: rest := List.isPrefixOf_iff_prefix.mp hp
      obtain ⟨t, ht⟩ := hpre
      simp only [List.nil_append]
      rw [← ht, List.drop_left]
    · rw [if_neg hp] at h
      cases hrec : splitOnceAfter pat rest with
      | none => rw [hrec] at h; exact absurd h (by simp)
      | some p =>
        obtain ⟨b', a'⟩ := p
        rw [hrec] at h
        obtain ⟨rfl, rfl⟩ := Prod.mk.injEq .. ▸ Option.some.injEq .. ▸ h
        simpa using ih hrec

theorem splitOnceAfter_isSome {pat x y s : List α}
    (h : x ++ pat ++ y = s) (hpat : pat ≠ []) :
    (splitOnceAfter pat s).isSome := by
  induction x generalizing s with
  | nil =>
    obtain ⟨q, qt, hq⟩ := List.exists_cons_of_ne_nil hpat
    subst hq
    simp only [List.nil_append] at h
    cases s with
    | nil => simp at h
    | cons c rest =>
      rw [splitOnceAfter]
      have hpre : (q :: qt).isPrefixOf (c :: rest) := by
        refine List.isPrefixOf_iff_prefix.mpr ⟨y, ?_⟩
        simpa using h
      rw [if_pos hpre]
      simp
  | cons p x' ih =>
    cases s with
    | nil => exact absurd h (by simp)
    | cons c rest =>
      have hc : p = c ∧ x' ++ pat ++ y = rest := by
        have := h
        simp only [List.cons_append, List.cons.injEq] at this
        exact this
      obtain ⟨rfl, hrest⟩ := hc
      rw [splitOnceAfter]
      by_cases hp : pat.isPrefixOf (p :: rest)
      · rw [if_pos hp]; simp
      · rw [if_neg hp]
        have := ih hrest
        cases hrec : splitOnceAfter pat rest with
        | none => rw [hrec] at this; simp at this
        | some q => cases q; simp

theorem splitOnceAfter_none {pat s : List α}
    (h : splitOnceAfter pat s = none) (hpat : pat ≠ []) : ¬ pat <:+: s := by
  rintro ⟨x, y, hxy⟩
  have := splitOnceAfter_isSome hxy hpat
  rw [h] at this
  simp at this

theorem splitOnceAfter_leftmost {pat s b a : List α}
    (h : splitOnceAfter pat s = some (b, a)) :
    ∀ x y, x ++ pat ++ y = s → b.length ≤ x.length := by
  induction s generalizing b with
  | nil => simp [splitOnceAfter] at h
  | cons c rest ih =>
    intro x y hxy
    rw [splitOnceAfter] at h
    by_cases hp : pat.isPrefixOf (c :: rest)
    · rw [if_pos hp] at h
      obtain ⟨rfl, rfl⟩ := Prod.mk.injEq .. ▸ Option.some.injEq .. ▸ h
      simp
    · rw [if_neg hp] at h
      cases x with
      | nil =>
        exfalso
        apply hp
        refine List.isPrefixOf_iff_prefix.mpr ⟨y, ?_⟩
        simpa using hxy
      | cons p x' =>
        have hc : p = c ∧ x' ++ pat ++ y = rest := by
          have := hxy
          simp only [List.cons_append, List.cons.injEq] at this
          exact this
        obtain ⟨rfl, hrest⟩ := hc
        cases hrec : splitOnceAfter pat rest with
        | none => rw [hrec] at h; exact absurd h (by simp)
        | some q =>
          obtain ⟨b', a'⟩ := q
          rw [hrec] at h
          obtain ⟨rfl, rfl⟩ := Prod.mk.injEq .. ▸ Option.some.injEq .. ▸ h
          simpa using ih hrec x' y hrest

theorem splitOnceAfter_self {pat rest : List α} (hpat : pat ≠ []) :
    splitOnceAfter pat (pat ++ rest) = some ([], rest) := by
  obtain ⟨q, qt, hq⟩ := List.exists_cons_of_ne_nil hpat
  subst hq
  have hpre : (q :: qt).isPrefixOf ((q :: qt) ++ rest) :=
    List.isPrefixOf_iff_prefix.mpr (List.prefix_append ..)
  rw [List.cons_append, splitOnceAfter, ← List.cons_append, if_pos hpre,
    List.drop_left]

/-- A pattern with no nontrivial border (no proper nonempty affix that is both
a prefix and a suffix) cannot overlap an occurrence of itself; if it also does
not occur inside `pre`, the leftmost occurrence of `pat` in
`pre ++ pat ++ rest` is exactly the explicit one. -/
theorem splitOnceAfter_append {pat pre rest : List α} (hpat : pat ≠ [])
    (hb : ∀ k, k < pat.length → 0 < k → pat.take k ≠ pat.drop (pat.length - k))
    (hni : ¬ pat <:+: pre) :
    splitOnceAfter pat (pre ++ pat ++ rest) = some (pre, rest) := by
  induction pre with
  | nil =>
    simpa using @splitOnceAfter_self α _ pat rest hpat
  | cons p pre' ih =>
    have hnotpre : ¬ pat.isPrefixOf ((p :: pre') ++ pat ++ rest) := by
      intro hp
      have hpre : pat <+: (p :: pre') ++ (pat ++ rest) := by
        simpa [List.append_assoc] using List.isPrefixOf_iff_prefix.mp hp
      by_cases hlen : pat.length ≤ (p :: pre').length
      · have : pat <+: p :: pre' :=
          List.prefix_of_prefix_length_le hpre (List.prefix_append ..) hlen
        exact hni this.isInfix
      · push_neg at hlen
        simp only [List.length_cons] at hlen
        have hxp : (p :: pre') <+: pat :=
          List.prefix_of_prefix_length_le (List.prefix_append ..) hpre
            (Nat.le_of_lt hlen)
        obtain ⟨t, ht⟩ := hxp
        have hlt : t.length < pat.length := by
          have := congrArg List.length ht
          simp only [List.length_append, List.length_cons] at this
          omega
        have hpos : 0 < t.length := by
          have := congrArg List.length ht
          simp only [List.length_append, List.length_cons] at this
          omega
        have htpre : t <+: pat := by
          have h1 : (p :: pre') ++ t <+: (p :: pre') ++ (pat ++ rest) := by
            rw [ht]; exact hpre
          have h2 : t <+: pat ++ rest := (List.prefix_append_right_inj _).mp h1
          exact List.prefix_of_prefix_length_le h2 (List.prefix_append ..)
            (Nat.le_of_lt hlt)
        have htsuf : t <:+ pat := ⟨p :: pre', ht⟩
        apply hb t.length hlt hpos
        · rw [← List.prefix_iff_eq_take.mp htpre,
            ← List.suffix_iff_eq_drop.mp htsuf]
    rw [List.cons_append, List.cons_append, splitOnceAfter,
      if_neg (by simpa [List.append_assoc] using hnotpre)]
    have hni' : ¬ pat <:+: pre' := fun h => hni (List.infix_cons h)
    rw [ih hni']

theorem splitOnceAfter_length_le {pat s b a : List α}
    (h : splitOnceAfter pat s = some (b, a)) :
    b.length + pat.length + a.length = s.length := by
  have := congrArg List.length (splitOnceAfter_eq_append h)
  simp only [List.length_append] at this
  omega

end SplitOnceAfter

/-- The opening sentinel marker of a reasoning segment. -/
def thinkOpen : List Char := "<think>".toList

/-- The closing sentinel marker of a reasoning segment. -/
def thinkClose : List Char := "</think>".toList

/-- `re.sub(r"<think>.*?</think>\s*", "", s, flags=re.DOTALL)` as the Python
code runs it in `generate_tweet_draft` and `generate_image_prompt`: scan left
to right; a match is the leftmost `<think>` that has a `</think>` after it,
together with the earliest such `</think>` (the lazy `.*?`) and the greedy run
of whitespace following it (`\s*`); remove the match and continue scanning
after it.  When the leftmost `<think>` has no `</think>` after it no later one
does either, so the string is returned unchanged. -/
def stripThinkSub (s : List Char) : List Char :=
  match h1 : splitOnceAfter thinkOpen s with
  | none => s
  | some (pre, rest) =>
    match h2 : splitOnceAfter thinkClose rest with
    | none => s
    | some (_mid, post) => pre ++ stripThinkSub (List.dropWhile isPySpace post)
termination_by s.length
decreasing_by
  have l1 := splitOnceAfter_length_le h1
  have l2 := splitOnceAfter_length_le h2
  have l3 : (List.dropWhile isPySpace post).length ≤ post.length :=
    (List.dropWhile_suffix isPySpace).length_le
  have lo : thinkOpen.length = 7 := rfl
  have lc : thinkClose.length = 8 := rfl
  omega

/-- Whether the `re.sub` pattern `<think>.*?</think>` matches anywhere in
`s`: some `<think>` is followed, further right, by some `</think>`. -/
def hasThinkMatch (s : List Char) : Bool :=
  match splitOnceAfter thinkOpen s with
  | none => false
  | some (_, rest) => (splitOnceAfter thinkClose rest).isSome

/-- The text-cleaning step applied to every raw generation response:
`re.sub(r"<think>.*?</think>\s*", "", raw, flags=re.DOTALL).strip()`. -/
def cleanResponse (s : List Char) : List Char :=
  pyStrip (stripThinkSub s)

theorem stripThinkSub_of_open_none {s : List Char}
    (h : splitOnceAfter thinkOpen s = none) : stripThinkSub s = s := by
  rw [stripThinkSub]
  split
  · rfl
  · next pre' rest' h1' =>
    rw [h] at h1'
    simp at h1'

theorem stripThinkSub_of_close_none {s pre rest : List Char}
    (h1 : splitOnceAfter thinkOpen s = some (pre, rest))
    (h2 : splitOnceAfter thinkClose rest = none) : stripThinkSub s = s := by
  rw [stripThinkSub]
  split
  · rfl
  · next pre' rest' h1' =>
    rw [h1] at h1'
    obtain ⟨rfl, rfl⟩ := Prod.mk.injEq .. ▸ Option.some.injEq .. ▸ h1'
    split
    · rfl
    · next mid' post' h2' =>
      rw [h2] at h2'
      simp at h2'

theorem stripThinkSub_of_some {s pre rest mid post : List Char}
    (h1 : splitOnceAfter thinkOpen s = some (pre, rest))
    (h2 : splitOnceAfter thinkClose rest = some (mid, post)) :
    stripThinkSub s = pre ++ stripThinkSub (List.dropWhile isPySpace post) := by
  rw [stripThinkSub]
  split
  · next h1' =>
    rw [h1] at h1'
    simp at h1'
  · next pre' rest' h1' =>
    rw [h1] at h1'
    obtain ⟨rfl, rfl⟩ := Prod.mk.injEq .. ▸ Option.some.injEq .. ▸ h1'
    split
    · next h2' =>
      rw [h2] at h2'
      simp at h2'
    · next mid' post' h2' =>
      rw [h2] at h2'
      obtain ⟨rfl, rfl⟩ := Prod.mk.injEq .. ▸ Option.some.injEq .. ▸ h2'
      rfl

theorem stripThinkSub_no_match {s : List Char} (h : hasThinkMatch s = false) :
    stripThinkSub s = s := by
  unfold hasThinkMatch at h
  cases ho : splitOnceAfter thinkOpen s with
  | none => exact stripThinkSub_of_open_none ho
  | some p =>
    obtain ⟨pre, rest⟩ := p
    rw [ho] at h
    simp only at h
    cases hc : splitOnceAfter thinkClose rest with
    | none => exact stripThinkSub_of_close_none ho hc
    | some q => rw [hc] at h; simp at h

theorem stripThinkSub_step {pre mid post : List Char}
    (hpre : ¬ thinkOpen <:+: pre) (hmid : ¬ thinkClose <:+: mid) :
    stripThinkSub (pre ++ thinkOpen ++ mid ++ thinkClose ++ post) =
      pre ++ stripThinkSub (List.dropWhile isPySpace post) := by
  have hb1 : ∀ k, k < thinkOpen.length → 0 < k →
      thinkOpen.take k ≠ thinkOpen.drop (thinkOpen.length - k) := by decide
  have hb2 : ∀ k, k < thinkClose.length → 0 < k →
      thinkClose.take k ≠ thinkClose.drop (thinkClose.length - k) := by decide
  have h1 : splitOnceAfter thinkOpen
      (pre ++ thinkOpen ++ (mid ++ thinkClose ++ post)) =
      some (pre, mid ++ thinkClose ++ post) :=
    splitOnceAfter_append (by decide) hb1 hpre
  have h2 : splitOnceAfter thinkClose (mid ++ thinkClose ++ post) =
      some (mid, post) :=
    splitOnceAfter_append (by decide) hb2 hmid
  have hassoc : pre ++ thinkOpen ++ mid ++ thinkClose ++ post =
      pre ++ thinkOpen ++ (mid ++ thinkClose ++ post) := by
    simp [List.append_assoc]
  rw [hassoc]
  exact stripThinkSub_of_some h1 h2

theorem hasThinkMatch_iff {s : List Char} :
    hasThinkMatch s = true ↔
      ∃ a b c, s = a ++ thinkOpen ++ b ++ thinkClose ++ c := by
  constructor
  · intro h
    unfold hasThinkMatch at h
    cases ho : splitOnceAfter thinkOpen s with
    | none => rw [ho] at h; simp at h
    | some p =>
      obtain ⟨pre, rest⟩ := p
      rw [ho] at h
      simp only [Option.isSome_iff_exists] at h
      obtain ⟨q, hc⟩ := h
      obtain ⟨mid, post⟩ := q
      have e1 := splitOnceAfter_eq_append ho
      have e2 := splitOnceAfter_eq_append hc
      exact ⟨pre, mid, post, by rw [e1, e2]; simp [List.append_assoc]⟩
  · rintro ⟨a, b, c, rfl⟩
    have hsome : (splitOnceAfter thinkOpen
        (a ++ thinkOpen ++ b ++ thinkClose ++ c)).isSome :=
      splitOnceAfter_isSome (x := a) (y := b ++ thinkClose ++ c)
        (by simp [List.append_assoc]) (by decide)
    rw [Option.isSome_iff_exists] at hsome
    obtain ⟨p, ho⟩ := hsome
    obtain ⟨pre, rest⟩ := p
    unfold hasThinkMatch
    rw [ho]
    have e1 := splitOnceAfter_eq_append ho
    have hle : pre.length ≤ a.length :=
      splitOnceAfter_leftmost ho a (b ++ thinkClose ++ c)
        (by simp [List.append_assoc])
    have hrest : rest =
        List.drop (pre.length + thinkOpen.length)
          (a ++ thinkOpen ++ b ++ thinkClose ++ c) := by
      rw [e1]
      rw [List.drop_left' (by simp)]
    have hbc : b ++ thinkClose ++ c =
        List.drop (a.length + thinkOpen.length)
          (a ++ thinkOpen ++ b ++ thinkClose ++ c) := by
      have : a ++ thinkOpen ++ b ++ thinkClose ++ c =
          (a ++ thinkOpen) ++ (b ++ thinkClose ++ c) := by
        simp [List.append_assoc]
      rw [this, List.drop_left' (by simp)]
    have hsuf : b ++ thinkClose ++ c <:+ rest := by
      rw [hrest, hbc]
      exact List.drop_suffix_drop_left _ (by omega)
    have hinf : thinkClose <:+: rest :=
      List.IsInfix.trans ⟨b, c, by simp [List.append_assoc]⟩ hsuf.isInfix
    obtain ⟨x, y, hxy⟩ := hinf
    simpa using splitOnceAfter_isSome hxy (by decide)

theorem hasThinkMatch_infix_mono {u r : List Char} (hu : u <:+: r)
    (h : hasThinkMatch u = true) : hasThinkMatch r = true := by
  rw [hasThinkMatch_iff] at h ⊢
  obtain ⟨a, b, c, hd⟩ := h
  obtain ⟨x, y, hxy⟩ := hu
  exact ⟨x ++ a, b, c ++ y, by rw [← hxy, hd]; simp [List.append_assoc]⟩

theorem dropWhile_idem (p : Char → Bool) (l : List Char) :
    List.dropWhile p (List.dropWhile p l) = List.dropWhile p l := by
  induction l with
  | nil => simp
  | cons c t ih =>
    by_cases h : p c
    · simp only [List.dropWhile_cons, if_pos h]
      exact ih
    · simp [List.dropWhile_cons, if_neg h, h]

theorem dropWhile_eq_self_of_isPrefix {p : Char → Bool} {u l : List Char}
    (hl : List.dropWhile p l = l) (hu : u <+: l) :
    List.dropWhile p u = u := by
  cases u with
  | nil => simp
  | cons a u' =>
    cases l with
    | nil => exact absurd (List.eq_nil_of_prefix_nil hu) (by simp)
    | cons b t =>
      have hab : a = b := (List.cons_prefix_cons.mp hu).1
      subst hab
      have hpa : p a = false := by
        by_contra hpa
        rw [Bool.not_eq_false] at hpa
        rw [List.dropWhile_cons, if_pos hpa] at hl
        have := congrArg List.length hl
        have hle : (List.dropWhile p t).length ≤ t.length :=
          (List.dropWhile_suffix p).length_le
        simp at this
        omega
      rw [List.dropWhile_cons, if_neg (by simp [hpa])]

theorem pyStrip_isPrefix_dropWhile (s : List Char) :
    pyStrip s <+: List.dropWhile isPySpace s := by
  have h := List.reverse_prefix.mpr
    (List.dropWhile_suffix (l := (List.dropWhile isPySpace s).reverse) isPySpace)
  rwa [List.reverse_reverse] at h

theorem pyStrip_isInfix_self (s : List Char) : pyStrip s <:+: s := by
  exact (pyStrip_isPrefix_dropWhile s).isInfix.trans
    (List.dropWhile_suffix isPySpace).isInfix

theorem pyStrip_idem (s : List Char) : pyStrip (pyStrip s) = pyStrip s := by
  have ht : List.dropWhile isPySpace (List.dropWhile isPySpace s) =
      List.dropWhile isPySpace s := dropWhile_idem _ _
  have h1 : List.dropWhile isPySpace (pyStrip s) = pyStrip s :=
    dropWhile_eq_self_of_isPrefix ht (pyStrip_isPrefix_dropWhile s)
  have h2 : List.dropWhile isPySpace ((pyStrip s).reverse) = (pyStrip s).reverse := by
    unfold pyStrip
    rw [List.reverse_reverse]
    exact dropWhile_idem _ _
  rw [pyStrip, h1, h2, List.reverse_reverse]

/-! ### Generation step: prompt construction (`TweetGeneratorAgent.generate_tweet_draft`, `generate_image_prompt`) -/

/-- `max_content_length` of `generate_tweet_draft` (agent_core.py line 131). -/
def max_content_length : Nat := 2000

/-- `truncated_content` of `generate_tweet_draft`:
`full_article_content[:max_content_length] + "..." if
len(full_article_content) > max_content_length else full_article_content`. -/
def truncated_content (full_article_content : List Char) : List Char :=
  if full_article_content.length > max_content_length then
    full_article_content.take max_content_length ++ "...".toList
  else full_article_content

/-- The placeholder sentence `generate_tweet_draft` uses for
`example_tweets_str` when `relevant_past_tweets` is empty. -/
def noExamplesPlaceholder : String :=
  "No specifically relevant past examples found. Please generate content based on your core style."

/-- One line of the examples block: the f-string `f'- "{tweet}"'`. -/
def bulletTweet (tweet : List Char) : List Char :=
  "- \"".toList ++ tweet ++ "\"".toList

/-- `example_tweets_str` of `generate_tweet_draft`: a newline-joined bulleted
quoted list when any past tweets were retrieved, the placeholder sentence
otherwise. -/
def example_tweets_str (relevant_past_tweets : List (List Char)) : List Char :=
  if relevant_past_tweets = [] then noExamplesPlaceholder.toList
  else List.intercalate "\n".toList (relevant_past_tweets.map bulletTweet)

/-!
The fixed `prompt_template` of `generate_tweet_draft` (agent_core.py lines
145-175), split at its three `str.format` placeholders
`{example_tweets_formatted}`, `{article_title}` and `{article_content}`; the
text of each part is copied verbatim from the source.  Likewise
`prompt_template_image` of `generate_image_prompt` (lines 235-245), split at
`{article_title}` and `{tweet_text}`.
-/

def promptTemplatePartA : String :=
  "\nYou are \"Back to Basic,\" the AI personality behind a popular social media account on X (formerly Twitter).\nYour mission is to take current news articles and transform them into highly engaging, super-simplified explanations for a general audience. You're the knowledgeable yet approachable friend who breaks down complex stuff so anyone can get it, often with a relatable hook or a touch of lightheartedness.\n\n**Core \"Back to Basic\" Style Mandate:**\n(Mandate points 1-9 as before...)\n1.  **Hook 'Em Early:** Often start with a direct question (e.g., \"What's happening with X?\", \"So, what's the deal with Y? ü§î\") or a very brief, attention-grabbing statement about the news.\n2.  **Ultra-Simplicity:** Explain the core news as if you're talking to someone smart but completely unfamiliar with the topic. Define key terms or players if necessary (e.g., \"The Federal Reserve ('the Fed') is America's central bank.\").\n3.  **\"Why it Matters\" / \"The Gist\":** Crucially, explain *why* this news is important or relevant to the average person. How does it affect them or the world?\n4.  **Context is Key (Briefly!):** Provide just enough backstory or context to make the current event understandable (e.g., \"For the past year or so, the Fed has been raising interest rates...\").\n5.  **Anticipate Follow-up Questions:** Think about what a curious reader would ask next and try to address it concisely (e.g., \"What investors are really listening for:\", \"Why are rate cuts often seen as positive?\").\n6.  **Conversational & Engaging Tone:** Use a friendly, approachable, and conversational voice. A touch of humor or a relatable analogy is great where appropriate, but clarity is paramount. Avoid dry, academic, or overly formal language.\n7.  **Visual Appeal & X-Native:**\n    *   **Emojis:** Use relevant emojis strategically to add personality and break up text (üìà, ü§î, üåç).\n    *   **Hashtags:** ALWAYS include the signature `#BackToBasic`. Consider 1-2 other relevant, common hashtags if space allows.\n    *   **Conciseness:** Tweets must be suitable for X.\n8.  **Focus:** Distill the *single most important aspect* or the core development from the article for a general audience. Don't try to cover everything.\n9.  **No Jargon (or Explain It):** Avoid jargon. If a technical term is absolutely necessary, define it immediately in simple terms.\n\nHere are some relevant examples of past tweets that might help you with the style for this topic:\n--- BEGIN RELEVANT EXAMPLES ---\n"

def promptTemplatePartB : String :=
  "\n--- END RELEVANT EXAMPLES ---\n\n**Current News Item:**\nHeadline: "

def promptTemplatePartC : String :=
  "\nArticle Snippet/Key Information: "

def promptTemplatePartD : String :=
  "\n(This content should ideally be a concise summary or the most critical paragraphs of the news story you want to explain)\n\nYour post here:\n"

def imageTemplatePartA : String :=
  "\nYou are an assistant that creates descriptive prompts for an AI image generator (like DALL-E, Midjourney, or Grok's image capabilities).\nBased on the following news article title and the tweet generated about it, create a concise and vivid image prompt.\nThe image should visually represent the core message or theme of the tweet.\nFocus on key subjects, actions, atmosphere, and style if applicable. Aim for a prompt that is detailed enough to guide the AI effectively.\n\nArticle Title: "

def imageTemplatePartB : String :=
  "\nGenerated Tweet: "

def imageTemplatePartC : String :=
  "\n\nImage Prompt for AI:\n"

/-- The prompt `generate_tweet_draft` renders: the fixed template with
`example_tweets_str`, the article title, and the truncated article content
substituted by `str.format`. -/
def draftPrompt (article_title full_article_content : List Char)
    (relevant_past_tweets : List (List Char)) : List Char :=
  promptTemplatePartA.toList
    ++ example_tweets_str relevant_past_tweets
    ++ promptTemplatePartB.toList
    ++ article_title
    ++ promptTemplatePartC.toList
    ++ truncated_content full_article_content
    ++ promptTemplatePartD.toList

/-- The prompt `generate_image_prompt` renders from the article title and the
generated tweet text. -/
def imagePrompt (article_title generated_tweet_text : List Char) : List Char :=
  imageTemplatePartA.toList
    ++ article_title
    ++ imageTemplatePartB.toList
    ++ generated_tweet_text
    ++ imageTemplatePartC.toList

/-- `TweetGeneratorAgent.generate_tweet_draft`.  `ollama_available` is the
availability flag `_check_ollama` set at initialization; `ollama_chat` is the
oracle for `ollama.chat(...)["message"]["content"]` on a given prompt, whose
`none` is the exception path (service unreachable or erroring).  The raw
response is stripped (`.strip()`), its `<think>` blocks removed and the
result stripped again; `none` means no draft. -/
def generate_tweet_draft (ollama_available : Bool)
    (ollama_chat : List Char → Option (List Char))
    (article_title full_article_content : List Char)
    (relevant_past_tweets : List (List Char)) : Option (List Char) :=
  if ollama_available = false then none
  else
    match ollama_chat
        (draftPrompt article_title full_article_content relevant_past_tweets) with
    | none => none
    | some response_content => some (cleanResponse (pyStrip response_content))

/-- `TweetGeneratorAgent.generate_image_prompt`: same availability gate,
generation call and response cleaning as `generate_tweet_draft`, with the
image template. -/
def generate_image_prompt (ollama_available : Bool)
    (ollama_chat : List Char → Option (List Char))
    (article_title generated_tweet_text : List Char) : Option (List Char) :=
  if ollama_available = false then none
  else
    match ollama_chat (imagePrompt article_title generated_tweet_text) with
    | none => none
    | some response_content => some (cleanResponse (pyStrip response_content))

/-! ### Retrieval step (`TweetGeneratorAgent.find_relevant_tweets`) -/

/-- Modelled from the spec: the nearest-neighbor search itself is ChromaDB's
`collection.query` (an external library, not code of this repository).
Spec section 4.2 gives its contract: the query returns up to `n_results`
stored items ranked by a distance metric over embeddings, with their
metadata.  The collection is embedded as a list of
(embedding, `text`-metadata) pairs and the index's metric as
`dist q e`, the distance from query embedding `q` to stored embedding `e`;
the query sorts the collection by that distance, ascending, and returns the
first `n_results` items. -/
def chromaQuery {Emb : Type} (dist : Emb → Emb → Int)
    (collection : List (Emb × List Char)) (q : Emb) (n_results : Nat) :
    List (Emb × List Char) :=
  (List.insertionSort (fun x y => dist q x.1 ≤ dist q y.1) collection).take
    n_results

/-- `TweetGeneratorAgent.find_relevant_tweets`.  When the ChromaDB collection
or the embedding model failed to initialize (`None` in the Python code,
`none` here) it returns `[]`; otherwise it encodes the query text (the
model's `encode` returns exactly one embedding per input text, so the
emptiness check on the encoded list never fires), queries the collection
with `include=["metadatas"]`, and collects the `"text"` field of every
returned metadata record (every stored record has one); an exception from
the query is impossible in this total model.  Python signature default:
`n_results=3`. -/
def find_relevant_tweets {Emb : Type} (dist : Emb → Emb → Int)
    (chroma_collection : Option (List (Emb × List Char)))
    (embedding_model : Option (List Char → Emb))
    (query_text : List Char) (n_results : Nat := 3) : List (List Char) :=
  match chroma_collection, embedding_model with
  | some collection, some encode =>
    (chromaQuery dist collection (encode query_text) n_results).map Prod.snd
  | _, _ => []

/-! ### Article fetching (`NewsFetcher`) and the pipeline -/

/-- `NewsFetcher.get_full_article_content`.  `download_and_parse` is the
oracle for `newspaper.Article(url).download(); .parse(); .text`, whose
`none` is the exception path (network, parsing or paywall failure).  An
empty URL is rejected before any network activity. -/
def get_full_article_content
    (download_and_parse : List Char → Option (List Char))
    (article_url : List Char) : Option (List Char) :=
  if article_url = [] then none
  else download_and_parse article_url

/-- `TweetGeneratorAgent.generate_tweet_from_selected_article`: validate the
URL and title (Python `if not article_url or not article_title`), fetch the
full article text, reject a missing or empty result
(`if not full_content`), then retrieve up to 3 relevant past tweets with the
article title as query and generate the draft. -/
def generate_tweet_from_selected_article {Emb : Type} (dist : Emb → Emb → Int)
    (chroma_collection : Option (List (Emb × List Char)))
    (embedding_model : Option (List Char → Emb))
    (ollama_available : Bool)
    (ollama_chat : List Char → Option (List Char))
    (download_and_parse : List Char → Option (List Char))
    (article_url article_title : List Char) : Option (List Char) :=
  if article_url = [] ∨ article_title = [] then none
  else
    match get_full_article_content download_and_parse article_url with
    | none => none
    | some full_content =>
      if full_content = [] then none
      else
        generate_tweet_draft ollama_available ollama_chat article_title
          full_content
          (find_relevant_tweets dist chroma_collection embedding_model
            article_title 3)

/-! ### Headline listing (`NewsFetcher.get_top_headlines`) -/

/-- An article record as the NewsAPI service returns it; the Python code
reads it with `article.get(...)`, so every field may be absent (`none`). -/
structure RawArticle where
  title : Option (List Char)
  description : Option (List Char)
  url : Option (List Char)
  publishedAt : Option (List Char)
  content : Option (List Char)

/-- The response dictionary of `newsapi.get_top_headlines`, read with
`.get("status")`, `.get("articles", [])`, `.get("code")`,
`.get("message")`. -/
structure HeadlinesResponse where
  status : Option (List Char)
  code : Option (List Char)
  message : Option (List Char)
  articles : Option (List RawArticle)

/-- The record `get_top_headlines` builds per article: its title,
description and url. -/
structure ProcessedArticle where
  title : Option (List Char)
  description : Option (List Char)
  url : Option (List Char)

/-- The outcome of the external `newsapi.get_top_headlines(...)` call:
either the wrapped call raises (transport or authorization error) or it
returns a response dictionary. -/
inductive ApiCallResult where
  | raises
  | returns (resp : HeadlinesResponse)

/-- The per-article projection of `get_top_headlines`:
`{"title": article.get("title"), "description": article.get("description"),
"url": article.get("url")}`. -/
def processArticle (article : RawArticle) : ProcessedArticle :=
  { title := article.title
    description := article.description
    url := article.url }

/-- `NewsFetcher.get_top_headlines`.  With the client uninitialized it
returns `None`; a raising call returns `None`; a response whose `status` is
not `"ok"` returns `None`; on `"ok"` it returns one processed record per
article, in order. -/
def get_top_headlines (newsapi_initialized : Bool) (call : ApiCallResult) :
    Option (List ProcessedArticle) :=
  if newsapi_initialized = false then none
  else
    match call with
    | .raises => none
    | .returns resp =>
      if resp.status = some "ok".toList then
        some ((resp.articles.getD []).map processArticle)
      else none

/-! ### Offline population (`populate_db.populate_vector_db`) -/

/-- A record of the ChromaDB collection as `populate_db` writes it: an id,
an embedding, and the `{"text": tweet}` metadata. -/
structure ChromaEntry (Emb : Type) where
  id : List Char
  embedding : Emb
  text : List Char

/-- Modelled from the spec: ChromaDB `collection.add` (an external library,
not code of this repository) inserts one new record per id, zipping the
parallel `embeddings`, `metadatas` and `ids` arguments; unlike `upsert` it
does not replace records already in the collection. -/
def chromaAdd {Emb : Type} (collection : List (ChromaEntry Emb))
    (embeddings : List Emb) (metadatas : List (List Char))
    (ids : List (List Char)) : List (ChromaEntry Emb) :=
  collection ++
    (ids.zip (embeddings.zip metadatas)).map fun p => ⟨p.1, p.2.1, p.2.2⟩

/-- The ids `populate_vector_db` assigns:
`[f"tweet_{i}" for i in range(len(tweets))]`. -/
def populate_ids (n : Nat) : List (List Char) :=
  (List.range n).map fun i => "tweet_".toList ++ (Nat.repr i).toList

/-- `populate_db.populate_vector_db`: with no tweets or no collection it
changes nothing; otherwise it encodes every tweet, builds the positional
ids and the `{"text": tweet}` metadata list, and `add`s the three parallel
lists to the collection. -/
def populate_vector_db {Emb : Type} (encode : List Char → Emb)
    (collection : Option (List (ChromaEntry Emb)))
    (tweets : List (List Char)) : Option (List (ChromaEntry Emb)) :=
  if tweets = [] then collection
  else
    match collection with
    | none => none
    | some coll =>
      some (chromaAdd coll (tweets.map encode) tweets
        (populate_ids tweets.length))

/-! ### The claims -/

/-- C2: for every article content string, draft generation truncates it
before prompt construction: content longer than the configured limit of
2000 characters is cut to exactly 2000 characters with a trailing ellipsis
marker appended, content at or under 2000 characters is passed through
unchanged, and the rendered prompt embeds the truncated content. -/
theorem C2_truncation (full_article_content article_title : List Char)
    (relevant_past_tweets : List (List Char)) :
    (full_article_content.length > 2000 →
      truncated_content full_article_content =
        full_article_content.take 2000 ++ "...".toList ∧
      (full_article_content.take 2000).length = 2000) ∧
    (full_article_content.length ≤ 2000 →
      truncated_content full_article_content = full_article_content) ∧
    draftPrompt article_title full_article_content relevant_past_tweets =
      promptTemplatePartA.toList
        ++ example_tweets_str relevant_past_tweets
        ++ promptTemplatePartB.toList ++ article_title
        ++ promptTemplatePartC.toList
        ++ truncated_content full_article_content
        ++ promptTemplatePartD.toList := by
  refine ⟨fun h => ⟨?_, ?_⟩, fun h => ?_, rfl⟩
  · simp only [truncated_content, max_content_length]
    rw [if_pos h]
  · rw [List.length_take]
    omega
  · simp only [truncated_content, max_content_length]
    rw [if_neg (by omega)]

/-- C2 witness: the truncation branches evaluated at a 2001-character
content and at a 5-character content. -/
theorem C2_truncation_witness :
    (truncated_content (List.replicate 2001 'a') =
        (List.replicate 2001 'a').take 2000 ++ "...".toList ∧
      ((List.replicate 2001 'a').take 2000).length = 2000) ∧
    truncated_content (List.replicate 5 'b') = List.replicate 5 'b' :=
  ⟨(C2_truncation (List.replicate 2001 'a') [] []).1
      (by rw [List.length_replicate]; omega),
    (C2_truncation (List.replicate 5 'b') [] []).2.1
      (by rw [List.length_replicate]; omega)⟩

/-- C5: an uninitialized vector store or embedding model, or an empty
collection, makes retrieval return the empty sequence rather than raising;
draft generation given an empty example sequence still renders its prompt
with the no-examples placeholder sentence and succeeds, and given a
non-empty example sequence it renders the examples as newline-separated
bulleted quoted lines. -/
theorem C5_graceful_degradation {Emb : Type} (dist : Emb → Emb → Int)
    (collection : List (Emb × List Char)) (encode : List Char → Emb)
    (query_text : List Char) (n_results : Nat)
    (article_title full_article_content response : List Char)
    (relevant_past_tweets : List (List Char)) :
    find_relevant_tweets dist none (some encode) query_text n_results = [] ∧
    find_relevant_tweets dist (some collection) none query_text n_results
      = [] ∧
    find_relevant_tweets dist (some []) (some encode) query_text n_results
      = [] ∧
    draftPrompt article_title full_article_content [] =
      promptTemplatePartA.toList ++ noExamplesPlaceholder.toList
        ++ promptTemplatePartB.toList ++ article_title
        ++ promptTemplatePartC.toList
        ++ truncated_content full_article_content
        ++ promptTemplatePartD.toList ∧
    generate_tweet_draft true (fun _ => some response) article_title
        full_article_content [] =
      some (cleanResponse (pyStrip response)) ∧
    (relevant_past_tweets ≠ [] →
      draftPrompt article_title full_article_content relevant_past_tweets =
        promptTemplatePartA.toList
          ++ List.intercalate "\n".toList
              (relevant_past_tweets.map bulletTweet)
          ++ promptTemplatePartB.toList ++ article_title
          ++ promptTemplatePartC.toList
          ++ truncated_content full_article_content
          ++ promptTemplatePartD.toList) := by
  refine ⟨rfl, rfl, ?_, ?_, rfl, fun h => ?_⟩
  · simp [find_relevant_tweets, chromaQuery, List.insertionSort]
  · simp [draftPrompt, example_tweets_str]
  · simp [draftPrompt, example_tweets_str, h]

/-- C5 witness: the non-empty-examples branch evaluated at one example. -/
theorem C5_graceful_degradation_witness :
    draftPrompt "T".toList "C".toList ["P".toList] =
      promptTemplatePartA.toList
        ++ List.intercalate "\n".toList (["P".toList].map bulletTweet)
        ++ promptTemplatePartB.toList ++ "T".toList
        ++ promptTemplatePartC.toList
        ++ truncated_content "C".toList
        ++ promptTemplatePartD.toList :=
  (C5_graceful_degradation (fun a b : Int => a - b) [] (fun _ => 0)
    [] 0 "T".toList "C".toList [] ["P".toList]).2.2.2.2.2 (by decide)

/-- C6: when the availability probe failed at initialization
(`ollama_available = false`) every draft-generation and image-prompt call
returns `none` whatever the generation oracle would answer (so no network
call is attempted), and when the generation call itself errors (`none` from
the oracle) the operation returns `none`, non-fatally. -/
theorem C6_ollama_short_circuit
    (ollama_chat : List Char → Option (List Char))
    (article_title full_article_content generated_tweet_text : List Char)
    (relevant_past_tweets : List (List Char)) :
    generate_tweet_draft false ollama_chat article_title
      full_article_content relevant_past_tweets = none ∧
    generate_image_prompt false ollama_chat article_title
      generated_tweet_text = none ∧
    (∀ avail : Bool,
      ollama_chat (draftPrompt article_title full_article_content
        relevant_past_tweets) = none →
      generate_tweet_draft avail ollama_chat article_title
        full_article_content relevant_past_tweets = none) ∧
    (∀ avail : Bool,
      ollama_chat (imagePrompt article_title generated_tweet_text) = none →
      generate_image_prompt avail ollama_chat article_title
        generated_tweet_text = none) := by
  refine ⟨rfl, rfl, fun avail h => ?_, fun avail h => ?_⟩
  · cases avail
    · rfl
    · simp [generate_tweet_draft, h]
  · cases avail
    · rfl
    · simp [generate_image_prompt, h]

/-- C6 witness: an erroring generation oracle makes both operations return
`none` even with the probe flag set. -/
theorem C6_ollama_short_circuit_witness :
    generate_tweet_draft true (fun _ => none) "T".toList "C".toList []
      = none ∧
    generate_image_prompt true (fun _ => none) "T".toList "D".toList
      = none :=
  ⟨(C6_ollama_short_circuit (fun _ => none) "T".toList "C".toList
      "D".toList []).2.2.1 true rfl,
    (C6_ollama_short_circuit (fun _ => none) "T".toList "C".toList
      "D".toList []).2.2.2 true rfl⟩

/-- C7: every headline-listing call that hits an uninitialized client, a
raising service call, or a response whose status is not "ok" yields `none`
(never a partial list, and the embedding is total so nothing is raised to
the caller); on an "ok" status it returns exactly one record per returned
article, carrying that article's title, description and url, in order. -/
theorem C7_get_top_headlines (call : ApiCallResult)
    (resp : HeadlinesResponse) (newsapi_initialized : Bool) :
    get_top_headlines false call = none ∧
    get_top_headlines newsapi_initialized .raises = none ∧
    (resp.status ≠ some "ok".toList →
      get_top_headlines newsapi_initialized (.returns resp) = none) ∧
    (resp.status = some "ok".toList →
      get_top_headlines true (.returns resp) =
        some ((resp.articles.getD []).map fun article =>
          { title := article.title
            description := article.description
            url := article.url }) ∧
      ((resp.articles.getD []).map processArticle).length =
        (resp.articles.getD []).length) := by
  refine ⟨rfl, ?_, fun h => ?_, fun h => ⟨?_, ?_⟩⟩
  · cases newsapi_initialized
    · rfl
    · rfl
  · cases newsapi_initialized
    · rfl
    · show (if resp.status = some "ok".toList then
          some ((resp.articles.getD []).map processArticle) else none) = none
      rw [if_neg h]
  · simp [get_top_headlines, h, processArticle]
  · rw [List.length_map]

/-- C7 witness: a mocked "error" response yields `none`; a mocked "ok"
response with one article yields exactly its (title, description, url)
record. -/
theorem C7_get_top_headlines_witness :
    get_top_headlines true
      (.returns ⟨some "error".toList, some "apiKeyInvalid".toList,
        some "bad key".toList,
        some [⟨some "T".toList, some "D".toList, some "U".toList,
          none, none⟩]⟩) = none ∧
    get_top_headlines true
      (.returns ⟨some "ok".toList, none, none,
        some [⟨some "T".toList, some "D".toList, some "U".toList,
          none, none⟩]⟩) =
      some [⟨some "T".toList, some "D".toList, some "U".toList⟩] :=
  ⟨(C7_get_top_headlines .raises
      ⟨some "error".toList, some "apiKeyInvalid".toList,
        some "bad key".toList,
        some [⟨some "T".toList, some "D".toList, some "U".toList,
          none, none⟩]⟩ true).2.2.1 (by decide),
    ((C7_get_top_headlines .raises
      ⟨some "ok".toList, none, none,
        some [⟨some "T".toList, some "D".toList, some "U".toList,
          none, none⟩]⟩ true).2.2.2 (by decide)).1⟩

/-- C8: a missing URL or title is rejected before any external call, and a
failed full-text fetch (`none`, or an empty extraction) aborts the pipeline
with `none` whatever the retrieval store or the generation oracle holds, so
neither is consulted. -/
theorem C8_pipeline_aborts {Emb : Type} (dist : Emb → Emb → Int)
    (chroma_collection : Option (List (Emb × List Char)))
    (embedding_model : Option (List Char → Emb))
    (ollama_available : Bool)
    (ollama_chat : List Char → Option (List Char))
    (download_and_parse : List Char → Option (List Char))
    (article_url article_title : List Char) :
    (article_url = [] →
      generate_tweet_from_selected_article dist chroma_collection
        embedding_model ollama_available ollama_chat download_and_parse
        article_url article_title = none) ∧
    (article_title = [] →
      generate_tweet_from_selected_article dist chroma_collection
        embedding_model ollama_available ollama_chat download_and_parse
        article_url article_title = none) ∧
    (get_full_article_content download_and_parse article_url = none →
      generate_tweet_from_selected_article dist chroma_collection
        embedding_model ollama_available ollama_chat download_and_parse
        article_url article_title = none) := by
  refine ⟨fun h => ?_, fun h => ?_, fun h => ?_⟩
  · simp [generate_tweet_from_selected_article, h]
  · simp [generate_tweet_from_selected_article, h]
  · by_cases hv : article_url = [] ∨ article_title = []
    · simp [generate_tweet_from_selected_article, hv]
    · simp [generate_tweet_from_selected_article, hv, h]

/-- C8 witness: an empty URL and an unreachable article each abort the
pipeline. -/
theorem C8_pipeline_aborts_witness :
    generate_tweet_from_selected_article (fun a b : Int => a - b)
      (some []) (some fun _ => 0) true (fun _ => some "x".toList)
      (fun _ => some "y".toList) [] "T".toList = none ∧
    generate_tweet_from_selected_article (fun a b : Int => a - b)
      (some []) (some fun _ => 0) true (fun _ => some "x".toList)
      (fun _ => none) "u".toList "T".toList = none :=
  ⟨(C8_pipeline_aborts (fun a b : Int => a - b) (some [])
      (some fun _ => 0) true (fun _ => some "x".toList)
      (fun _ => some "y".toList) [] "T".toList).1 rfl,
    (C8_pipeline_aborts (fun a b : Int => a - b) (some [])
      (some fun _ => 0) true (fun _ => some "x".toList)
      (fun _ => none) "u".toList "T".toList).2.2 (by decide)⟩

/-- C9: in every pipeline run whose validation and fetch succeed, the draft
is generated from the retrieval of exactly 3 examples with the article
title — not the content — as the query string. -/
theorem C9_retrieval_query_is_title {Emb : Type} (dist : Emb → Emb → Int)
    (chroma_collection : Option (List (Emb × List Char)))
    (embedding_model : Option (List Char → Emb))
    (ollama_available : Bool)
    (ollama_chat : List Char → Option (List Char))
    (download_and_parse : List Char → Option (List Char))
    (article_url article_title full_content : List Char)
    (hu : article_url ≠ []) (ht : article_title ≠ [])
    (hf : download_and_parse article_url = some full_content)
    (hc : full_content ≠ []) :
    generate_tweet_from_selected_article dist chroma_collection
      embedding_model ollama_available ollama_chat download_and_parse
      article_url article_title =
      generate_tweet_draft ollama_available ollama_chat article_title
        full_content
        (find_relevant_tweets dist chroma_collection embedding_model
          article_title 3) := by
  simp [generate_tweet_from_selected_article, get_full_article_content,
    hu, ht, hf, hc]

/-- C9 witness: the wiring equation evaluated at a concrete successful
fetch. -/
theorem C9_retrieval_query_is_title_witness :
    generate_tweet_from_selected_article (fun a b : Int => a - b)
      (some []) (some fun _ => 0) true (fun _ => some "x".toList)
      (fun _ => some "body".toList) "u".toList "T".toList =
      generate_tweet_draft true (fun _ => some "x".toList) "T".toList
        "body".toList
        (find_relevant_tweets (fun a b : Int => a - b) (some [])
          (some fun _ => 0) "T".toList 3) :=
  C9_retrieval_query_is_title (fun a b : Int => a - b) (some [])
    (some fun _ => 0) true (fun _ => some "x".toList)
    (fun _ => some "body".toList) "u".toList "T".toList "body".toList
    (by decide) (by decide) rfl (by decide)

theorem zip_entries_proj {Emb : Type} (ids : List (List Char))
    (embs : List Emb) (metas : List (List Char))
    (h1 : ids.length = embs.length) (h2 : embs.length = metas.length) :
    ((ids.zip (embs.zip metas)).map
        (fun p => (⟨p.1, p.2.1, p.2.2⟩ : ChromaEntry Emb))).map
        ChromaEntry.id = ids ∧
    ((ids.zip (embs.zip metas)).map
        (fun p => (⟨p.1, p.2.1, p.2.2⟩ : ChromaEntry Emb))).map
        ChromaEntry.text = metas ∧
    ((ids.zip (embs.zip metas)).map
        (fun p => (⟨p.1, p.2.1, p.2.2⟩ : ChromaEntry Emb))).length =
      ids.length := by
  induction ids generalizing embs metas with
  | nil =>
    have h3 : metas.length = 0 := by
      simp only [List.length_nil] at h1
      omega
    rw [List.length_eq_zero] at h3
    subst h3
    simp
  | cons i it ih =>
    cases embs with
    | nil => simp at h1
    | cons e et =>
      cases metas with
      | nil => simp at h2
      | cons m mt =>
        obtain ⟨ha, hb, hc⟩ := ih et mt (by simpa using h1) (by simpa using h2)
        simp [List.zip_cons_cons, ha, hb, hc]

theorem populate_ids_length (n : Nat) : (populate_ids n).length = n := by
  simp [populate_ids]

/-- C10: a population run over `n` loaded texts assigns the positional id
`tweet_i` to the i-th text, inserts through `add` (an append, never a
replacement), so the ids depend only on the position in the input file, and
a re-run against the already-populated collection adds a second batch whose
ids collide one for one with the first. -/
theorem C10_populate_positional_ids {Emb : Type} (encode : List Char → Emb)
    (coll : List (ChromaEntry Emb)) (tweets : List (List Char))
    (h : tweets ≠ []) :
    (∃ added : List (ChromaEntry Emb),
      populate_vector_db encode (some coll) tweets = some (coll ++ added) ∧
      added.map ChromaEntry.id = populate_ids tweets.length ∧
      added.map ChromaEntry.text = tweets ∧
      added.length = tweets.length) ∧
    populate_ids tweets.length =
      (List.range tweets.length).map
        (fun i => "tweet_".toList ++ (Nat.repr i).toList) ∧
    (∀ tweets2 : List (List Char), tweets2.length = tweets.length →
      populate_ids tweets2.length = populate_ids tweets.length) ∧
    (∀ c2, populate_vector_db encode
        (populate_vector_db encode (some []) tweets) tweets = some c2 →
      c2.map ChromaEntry.id =
        populate_ids tweets.length ++ populate_ids tweets.length ∧
      c2.length = 2 * tweets.length) := by
  have hlen1 : (populate_ids tweets.length).length = (tweets.map encode).length := by
    rw [populate_ids_length, List.length_map]
  have hlen2 : (tweets.map encode).length = tweets.length := List.length_map ..
  obtain ⟨ha, hb, hc⟩ :=
    zip_entries_proj (populate_ids tweets.length)
      (tweets.map encode) tweets hlen1 hlen2
  refine ⟨⟨((populate_ids tweets.length).zip
      ((tweets.map encode).zip tweets)).map
      (fun p => (⟨p.1, p.2.1, p.2.2⟩ : ChromaEntry Emb)), ?_, ha, hb, ?_⟩,
    rfl, fun tweets2 h2 => by rw [h2], fun c2 hc2 => ?_⟩
  · simp [populate_vector_db, h, chromaAdd]
  · rw [hc, populate_ids_length]
  · have hfirst : populate_vector_db encode (some []) tweets =
        some (((populate_ids tweets.length).zip
          ((tweets.map encode).zip tweets)).map
          (fun p => (⟨p.1, p.2.1, p.2.2⟩ : ChromaEntry Emb))) := by
      simp [populate_vector_db, h, chromaAdd]
    rw [hfirst] at hc2
    have hsecond : populate_vector_db encode
        (some (((populate_ids tweets.length).zip
          ((tweets.map encode).zip tweets)).map
          (fun p => (⟨p.1, p.2.1, p.2.2⟩ : ChromaEntry Emb)))) tweets =
        some ((((populate_ids tweets.length).zip
          ((tweets.map encode).zip tweets)).map
          (fun p => (⟨p.1, p.2.1, p.2.2⟩ : ChromaEntry Emb))) ++
          (((populate_ids tweets.length).zip
          ((tweets.map encode).zip tweets)).map
          (fun p => (⟨p.1, p.2.1, p.2.2⟩ : ChromaEntry Emb)))) := by
      simp [populate_vector_db, h, chromaAdd]
    rw [hsecond] at hc2
    obtain rfl := (Option.some.injEq .. ▸ hc2).symm
    constructor
    · rw [List.map_append, ha]
    · rw [List.length_append, hc, populate_ids_length]
      omega

/-- C10 witness: population of three texts into the empty collection, then a
re-run, evaluated at a concrete list. -/
theorem C10_populate_positional_ids_witness :
    (∃ added : List (ChromaEntry Int),
      populate_vector_db (fun _ => (0 : Int)) (some [])
        ["A".toList, "B".toList, "C".toList] = some ([] ++ added) ∧
      added.map ChromaEntry.id =
        populate_ids ["A".toList, "B".toList, "C".toList].length ∧
      added.map ChromaEntry.text = ["A".toList, "B".toList, "C".toList] ∧
      added.length = ["A".toList, "B".toList, "C".toList].length) :=
  (C10_populate_positional_ids (fun _ => (0 : Int)) []
    ["A".toList, "B".toList, "C".toList] (by decide)).1

/-- C1: for every non-empty query string and every k, retrieval with an
initialized store and embedding model returns the texts of a ranked list of
stored items: its length is `min k (collection size)` (so with fewer than k
items all of them come back), it is sorted by non-decreasing distance of
the stored embedding to the query embedding, and every item is from the
collection. -/
theorem C1_retrieval_ranked {Emb : Type} (dist : Emb → Emb → Int)
    (collection : List (Emb × List Char)) (encode : List Char → Emb)
    (query_text : List Char) (k : Nat) (hq : query_text ≠ []) :
    ∃ ranked : List (Emb × List Char),
      find_relevant_tweets dist (some collection) (some encode) query_text k
        = ranked.map Prod.snd ∧
      ranked.length = min k collection.length ∧
      List.Sorted
        (fun x y =>
          dist (encode query_text) x.1 ≤ dist (encode query_text) y.1)
        ranked ∧
      ∀ x ∈ ranked, x ∈ collection := by
  haveI ht : IsTotal (Emb × List Char)
      (fun x y : Emb × List Char =>
        dist (encode query_text) x.1 ≤ dist (encode query_text) y.1) :=
    ⟨fun a b => Int.le_total _ _⟩
  haveI htr : IsTrans (Emb × List Char)
      (fun x y : Emb × List Char =>
        dist (encode query_text) x.1 ≤ dist (encode query_text) y.1) :=
    ⟨fun a b c hab hbc => le_trans hab hbc⟩
  refine ⟨(List.insertionSort
      (fun x y : Emb × List Char =>
        dist (encode query_text) x.1 ≤ dist (encode query_text) y.1)
      collection).take k, ?_, ?_, ?_, ?_⟩
  · rfl
  · rw [List.length_take,
      (List.perm_insertionSort _ collection).length_eq]
  · exact List.Pairwise.sublist (List.take_sublist ..)
      (List.sorted_insertionSort _ collection)
  · intro x hx
    exact (List.perm_insertionSort _ collection).mem_iff.mp
      (List.take_subset _ _ hx)

/-- C1 witness: the ranked retrieval evaluated on a two-item collection with
k = 5. -/
theorem C1_retrieval_ranked_witness :
    ∃ ranked : List (Int × List Char),
      find_relevant_tweets (fun a b => (a - b) * (a - b))
        (some [((2 : Int), "bb".toList), ((1 : Int), "aa".toList)])
        (some fun _ => (0 : Int)) "q".toList 5 = ranked.map Prod.snd ∧
      ranked.length =
        min 5 [((2 : Int), "bb".toList), ((1 : Int), "aa".toList)].length ∧
      List.Sorted
        (fun x y : Int × List Char =>
          (fun a b => (a - b) * (a - b)) ((fun _ => (0 : Int)) "q".toList)
              x.1 ≤
            (fun a b => (a - b) * (a - b)) ((fun _ => (0 : Int)) "q".toList)
              y.1)
        ranked ∧
      ∀ x ∈ ranked,
        x ∈ [((2 : Int), "bb".toList), ((1 : Int), "aa".toList)] :=
  C1_retrieval_ranked (fun a b => (a - b) * (a - b))
    [((2 : Int), "bb".toList), ((1 : Int), "aa".toList)]
    (fun _ => (0 : Int)) "q".toList 5 (by decide)

/-- C3 counterexample: the cleaning is not idempotent on every input —
removing the match of `"<think<think>hi</think>>boom</think>"` splices the
stray prefix `"<think"` and the stray suffix `">..."` into a fresh marker
pair, which only a second application removes. -/
theorem C3_counterexample :
    cleanResponse
        (cleanResponse "<think<think>hi</think>>boom</think>".toList) ≠
      cleanResponse "<think<think>hi</think>>boom</think>".toList := by
  have h1 : stripThinkSub "<think<think>hi</think>>boom</think>".toList =
      "<think".toList ++
        stripThinkSub (List.dropWhile isPySpace ">boom</think>".toList) :=
    @stripThinkSub_of_some "<think<think>hi</think>>boom</think>".toList
      "<think".toList "hi</think>>boom</think>".toList "hi".toList
      ">boom</think>".toList (by decide) (by decide)
  have h2 : stripThinkSub (List.dropWhile isPySpace ">boom</think>".toList)
      = List.dropWhile isPySpace ">boom</think>".toList :=
    stripThinkSub_no_match (by decide)
  have h3 : stripThinkSub "<think<think>hi</think>>boom</think>".toList =
      "<think>boom</think>".toList := by
    rw [h1, h2]
    decide
  have h4 : cleanResponse "<think<think>hi</think>>boom</think>".toList =
      "<think>boom</think>".toList := by
    unfold cleanResponse
    rw [h3]
    decide
  have h5 : stripThinkSub "<think>boom</think>".toList =
      [] ++ stripThinkSub (List.dropWhile isPySpace ([] : List Char)) :=
    @stripThinkSub_of_some "<think>boom</think>".toList []
      "boom</think>".toList "boom".toList [] (by decide) (by decide)
  have h6 : stripThinkSub (List.dropWhile isPySpace ([] : List Char)) =
      List.dropWhile isPySpace ([] : List Char) :=
    stripThinkSub_no_match (by decide)
  have h7 : cleanResponse "<think>boom</think>".toList = [] := by
    unfold cleanResponse
    rw [h5, h6]
    decide
  rw [h4, h7]
  decide

/-- C3 (amended): the cleaning (marker-pair removal then trimming) is
idempotent on every input whose once-cleaned output no longer contains a
`<think>` marker followed by a `</think>` marker — removal can splice stray
text into a new marker pair, and only then does a second application remove
more; and on every input with no such segment at all the output is the
input up to leading/trailing whitespace trimming. -/
theorem C3_strip_idempotent_amended (s : List Char) :
    (hasThinkMatch (stripThinkSub s) = false →
      cleanResponse (cleanResponse s) = cleanResponse s) ∧
    (hasThinkMatch s = false → cleanResponse s = pyStrip s) := by
  constructor
  · intro h
    unfold cleanResponse
    have h2 : hasThinkMatch (pyStrip (stripThinkSub s)) = false := by
      by_contra hc
      rw [Bool.not_eq_false] at hc
      have := hasThinkMatch_infix_mono (pyStrip_isInfix_self (stripThinkSub s)) hc
      rw [h] at this
      exact Bool.false_ne_true this
    rw [stripThinkSub_no_match h2, pyStrip_idem]
  · intro h
    unfold cleanResponse
    rw [stripThinkSub_no_match h]

/-- C3 witness: idempotence at `"a<think>x</think>b"` (whose cleaned form
has no marker pair left) and trim-only behaviour at `"hello"`. -/
theorem C3_strip_idempotent_amended_witness :
    cleanResponse (cleanResponse "a<think>x</think>b".toList) =
      cleanResponse "a<think>x</think>b".toList ∧
    cleanResponse "hello".toList = pyStrip "hello".toList := by
  have hstep : stripThinkSub "a<think>x</think>b".toList =
      "a".toList ++ stripThinkSub (List.dropWhile isPySpace "b".toList) :=
    @stripThinkSub_of_some "a<think>x</think>b".toList "a".toList
      "x</think>b".toList "x".toList "b".toList (by decide) (by decide)
  have hb : stripThinkSub (List.dropWhile isPySpace "b".toList) =
      List.dropWhile isPySpace "b".toList :=
    stripThinkSub_no_match (by decide)
  have hW : hasThinkMatch (stripThinkSub "a<think>x</think>b".toList) =
      false := by
    rw [hstep, hb]
    decide
  exact ⟨(C3_strip_idempotent_amended "a<think>x</think>b".toList).1 hW,
    (C3_strip_idempotent_amended "hello".toList).2 (by decide)⟩

/-- C4 counterexample: the removal does take content from outside the
sentinel markers — the whitespace run right after a closing marker is part
of the match (`\s*`), so cleaning `"a<think>x</think> b"` yields `"ab"`,
not the trim of the outside parts `"a"` and `" b"` (which is `"a b"`). -/
theorem C4_counterexample :
    cleanResponse "a<think>x</think> b".toList ≠
      pyStrip ("a".toList ++ " b".toList) := by
  have h1 : stripThinkSub "a<think>x</think> b".toList =
      "a".toList ++ stripThinkSub (List.dropWhile isPySpace " b".toList) :=
    @stripThinkSub_of_some "a<think>x</think> b".toList "a".toList
      "x</think> b".toList "x".toList " b".toList (by decide) (by decide)
  have h2 : stripThinkSub (List.dropWhile isPySpace " b".toList) =
      List.dropWhile isPySpace " b".toList :=
    stripThinkSub_no_match (by decide)
  unfold cleanResponse
  rw [h1, h2]
  decide

/-- C4 (amended): the stripping tolerates zero, one or multiple delimited
segments and treats the markers as flat, non-overlapping pairs scanned left
to right — a string without a marker pair is left unchanged, and a string
`pre ++ <think> ++ mid ++ </think> ++ post` whose `pre` holds no open
marker and whose `mid` holds no close marker (nested-looking open markers
inside `mid` are fine) loses exactly the delimited segment plus the
whitespace run immediately following its close marker (the `\s*` of the
pattern — the one removal of content outside the markers beyond trimming),
after which scanning continues on the rest. -/
theorem C4_flat_scan_amended (s pre mid post : List Char) :
    (hasThinkMatch s = false → stripThinkSub s = s) ∧
    (¬ thinkOpen <:+: pre → ¬ thinkClose <:+: mid →
      stripThinkSub (pre ++ thinkOpen ++ mid ++ thinkClose ++ post) =
        pre ++ stripThinkSub (List.dropWhile isPySpace post)) :=
  ⟨stripThinkSub_no_match, fun h1 h2 => stripThinkSub_step h1 h2⟩

/-- C4 witness: one removal step on a nested-looking input (an extra open
marker inside the delimited segment) and the no-match case. -/
theorem C4_flat_scan_amended_witness :
    stripThinkSub ("p".toList ++ thinkOpen ++ "<think>q".toList ++
        thinkClose ++ " r".toList) =
      "p".toList ++ stripThinkSub (List.dropWhile isPySpace " r".toList) ∧
    stripThinkSub "zz".toList = "zz".toList :=
  ⟨(C4_flat_scan_amended [] "p".toList "<think>q".toList " r".toList).2
      (by decide) (by decide),
    (C4_flat_scan_amended "zz".toList [] [] []).1 (by decide)⟩

end XAgent
